import Mathlib

/-!
Verification of the race simulation and rules engine of `ball-race`
(`src/app/marbles/marbles-game.ts`), via a shallow embedding in Lean.

Modelling conventions:
* JS numbers are embedded as `ℚ` (times in milliseconds, positions in world
  pixels).  For the population sizes involved (≤ 1000 agents) the source's
  `Math.floor(n * 0.1)` / `Math.ceil(n * 0.1)` / `Math.ceil(n * 0.3)` on IEEE
  doubles agree with exact rational arithmetic, so they are embedded as the
  exact natural-number computations `n / 10`, `(n + 9) / 10`, `(3*n + 9) / 10`.
* `Math.random()` draws are passed in as explicit oracle arguments.
* `Math.hypot` speeds and unit direction vectors (irrational in general) are
  passed in as explicit arguments where the code consumes them.
* Rapier's `applyImpulse` is modelled as a velocity increment (the mass
  scaling is owned by the external physics collaborator).
-/

namespace BallRace

/-- `WORLD_W` from marbles-game.ts. -/
def WORLD_W : ℚ := 1280

/-- `WORLD_H` from marbles-game.ts. -/
def WORLD_H : ℚ := 9200

/-- `CUP_X = WORLD_W / 2`. -/
def CUP_X : ℚ := WORLD_W / 2

/-- `CUP_Y = WORLD_H - 120`. -/
def CUP_Y : ℚ := WORLD_H - 120

/-- `JET_JACKPOT_PASS_CHANCE = 0.05`. -/
def JET_JACKPOT_PASS_CHANCE : ℚ := 1 / 20

/-- `clamp(n, min, max) = Math.max(min, Math.min(max, n))`. -/
def clampQ (n lo hi : ℚ) : ℚ := max lo (min hi n)

/-- Extended value carrying the `±Infinity` sentinels used by the rank
threshold fields (`Number.NEGATIVE_INFINITY` / `Number.POSITIVE_INFINITY`). -/
inductive PVal where
  | negInf : PVal
  | fin : ℚ → PVal
  | posInf : PVal
deriving DecidableEq, Repr

/-- JS comparison `q >= v` where `v` may be `±Infinity`. -/
def PVal.geq (q : ℚ) : PVal → Bool
  | .negInf => true
  | .fin r => decide (r ≤ q)
  | .posInf => false

/-- JS comparison `q <= v` where `v` may be `±Infinity`. -/
def PVal.leq (q : ℚ) : PVal → Bool
  | .negInf => false
  | .fin r => decide (q ≤ r)
  | .posInf => true

/-- The three percentile threshold fields of `MarblesGame`
(`bottom30MaxProgress`, `top10MinProgress`, `top30MinProgress`). -/
structure RankThresholds where
  bottom30Max : PVal
  top10Min : PVal
  top30Min : PVal
deriving DecidableEq, Repr

/-- The reset state of the threshold fields (`start()` / `destroy()`):
`bottom30MaxProgress = -∞`, `top10MinProgress = +∞`, `top30MinProgress = +∞`. -/
def initialThresholds : RankThresholds :=
  { bottom30Max := .negInf, top10Min := .posInf, top30Min := .posInf }

/-- `Math.ceil(n * 0.1)` for a natural count `n` (exact for the engine's
population sizes). -/
def ceilTenth (n : ℕ) : ℕ := (n + 9) / 10

/-- `Math.ceil(n * 0.3)` for a natural count `n`. -/
def ceilThreeTenths (n : ℕ) : ℕ := (3 * n + 9) / 10

/-- `updateRankThresholds(sortedDesc)`: recompute the three cutoffs from the
alive agents' progress values sorted descending.  An empty input returns
without assigning anything. -/
def updateRankThresholds (sortedDesc : List ℚ) (th : RankThresholds) : RankThresholds :=
  let aliveCount := sortedDesc.length
  if aliveCount = 0 then th
  else
    let top10Count := max 1 (ceilTenth aliveCount)
    let top30Count := max 1 (ceilThreeTenths aliveCount)
    let bottom30Count := max 1 (ceilThreeTenths aliveCount)
    let top10Idx := min (top10Count - 1) (aliveCount - 1)
    let top30Idx := min (top30Count - 1) (aliveCount - 1)
    let bottom30Idx := min (aliveCount - bottom30Count) (aliveCount - 1)
    { top10Min := .fin (sortedDesc.getD top10Idx 0)
      top30Min := .fin (sortedDesc.getD top30Idx 0)
      bottom30Max := .fin (sortedDesc.getD bottom30Idx 0) }

/-- `isTop10(m)`: `m.progressY >= top10MinProgress`. -/
def isTop10 (th : RankThresholds) (progressY : ℚ) : Bool := PVal.geq progressY th.top10Min

/-- `isTop30(m)`: `m.progressY >= top30MinProgress`. -/
def isTop30 (th : RankThresholds) (progressY : ℚ) : Bool := PVal.geq progressY th.top30Min

/-- `isBottom30(m)`: `m.progressY <= bottom30MaxProgress`. -/
def isBottom30 (th : RankThresholds) (progressY : ℚ) : Bool := PVal.leq progressY th.bottom30Max

/-- `ensureRankThresholds()`: keep a cached (non-sentinel) value, return
unchanged on an empty alive set, otherwise recompute from the descending
sort of the alive agents' progress. -/
def ensureRankThresholds (aliveProgressSortedDesc : List ℚ) (th : RankThresholds) : RankThresholds :=
  if th.bottom30Max ≠ PVal.negInf ∧ th.top10Min ≠ PVal.posInf ∧ th.top30Min ≠ PVal.posInf then th
  else if aliveProgressSortedDesc.length = 0 then th
  else updateRankThresholds aliveProgressSortedDesc th

/-- The per-agent runtime record (`MarbleRuntime`), restricted to the fields
the rules engine reads and writes.  `posX/posY/velX/velY/angVel` stand for
the externally-owned body's translation, linear velocity and angular
velocity. -/
structure Marble where
  id : ℕ
  posX : ℚ
  posY : ℚ
  velX : ℚ
  velY : ℚ
  angVel : ℚ
  progressY : ℚ
  lastProgressY : ℚ
  lastY : ℚ
  jetMask : ℕ
  jetCooldownUntilMs : ℚ
  lastMovedAtMs : ℚ
  stuckCooldownUntilMs : ℚ
  rescueCount : ℕ
  rescueCooldownUntilMs : ℚ
  isEliminated : Bool
  warpUsed : Bool
  boostCooldownUntilMs : ℚ
  kickerCooldownUntilMs : ℚ
  magnetUntilMs : ℚ
  magnetX : ℚ
  magnetY : ℚ
deriving DecidableEq, Repr

/-- One anti-speedrun jet band (`JetBand`). -/
structure JetBand where
  y : ℚ
  activeUntilMs : ℚ
  upVel : ℚ
deriving DecidableEq, Repr

/-- The three jet bands installed by `buildMap()` via `addJet`. -/
def jetBands : List JetBand :=
  [⟨2860, 28000, 2800⟩, ⟨5200, 52000, 3200⟩, ⟨CUP_Y - 980, 70000, 3600⟩]

/-- Outcome of the per-marble jet-band scan in `stepOnce`, tagged with the
index of the band that fired. -/
inductive JetResult where
  | noBand : JetResult
  | jackpot : ℕ → JetResult
  | bounce : ℕ → JetResult
deriving DecidableEq, Repr

/-- The `Math.random()` draws a single jet-band scan can consume: the
jackpot roll (`Math.random() < 0.05`) and one `(Math.random() * 2 - 1)`
jitter value `r1 ∈ [-1, 1]`. -/
structure JetRand where
  jackpotRoll : ℚ
  r1 : ℚ
deriving DecidableEq, Repr

/-- The loop body of the jet-band scan (`for (let i = 0; ...)` in
`stepOnce`), processing bands from index `i` on; at most one band fires
(`break`).  Returns the updated marble, the (possibly clamped) working `y`,
and which band fired. -/
def jetScanFrom (elapsedMs nowMs : ℚ) (rand : JetRand) (prevY x : ℚ) :
    List JetBand → ℕ → Marble → ℚ → Marble × ℚ × JetResult
  | [], _, m, y => (m, y, .noBand)
  | band :: rest, i, m, y =>
    if band.activeUntilMs ≤ elapsedMs then jetScanFrom elapsedMs nowMs rand prevY x rest (i + 1) m y
    else if m.jetMask &&& (1 <<< i) ≠ 0 then jetScanFrom elapsedMs nowMs rand prevY x rest (i + 1) m y
    else if prevY < band.y ∧ band.y ≤ y then
      if i ≠ 0 ∧ rand.jackpotRoll < JET_JACKPOT_PASS_CHANCE then
        ({ m with jetMask := m.jetMask ||| (1 <<< i)
                  velX := clampQ (m.velX + rand.r1 * 900) (-4200) 4200
                  jetCooldownUntilMs := nowMs + 180 }, y, .jackpot i)
      else
        let clampedY := band.y - 44
        ({ m with posX := x
                  posY := clampedY
                  velX := clampQ ((CUP_X - x) * (11 / 5) + rand.r1 * 900) (-3200) 3200
                  velY := -(min band.upVel 1900)
                  angVel := 0
                  jetMask := if i = 0 then m.jetMask ||| (1 <<< i) else m.jetMask
                  jetCooldownUntilMs := nowMs + 260 }, clampedY, .bounce i)
    else jetScanFrom elapsedMs nowMs rand prevY x rest (i + 1) m y

/-- The jet-band check of `stepOnce` with its outer guard
(`phase === 'running' && jetBands.length > 0 && y > prevY && nowMs >= m.jetCooldownUntilMs`). -/
def jetScan (phaseRunning : Bool) (bands : List JetBand) (elapsedMs nowMs : ℚ)
    (rand : JetRand) (m : Marble) (prevY x y : ℚ) : Marble × ℚ × JetResult :=
  if phaseRunning ∧ bands ≠ [] ∧ prevY < y ∧ m.jetCooldownUntilMs ≤ nowMs then
    jetScanFrom elapsedMs nowMs rand prevY x bands 0 m y
  else (m, y, .noBand)

/-- The per-tick progress recording of `stepOnce`:
`progressY = max(progressY, yForProgress)` where `yForProgress` excludes the
finish zone (`min(y, CUP_Y - 1)`) while the round is running. -/
def progressUpdate (phaseRunning : Bool) (m : Marble) (y : ℚ) : Marble :=
  let yForProgress := if phaseRunning then min y (CUP_Y - 1) else y
  { m with progressY := max m.progressY yForProgress, lastY := y }

/-- `tryWarp`: one-shot, top-30% only; teleports to the fixed destination
`(585 + Math.random() * 110, 4700)` and re-bases `progressY`/`lastProgressY`/
`lastY` to the destination depth.  `r ∈ [0, 1)` is the random draw. -/
def tryWarp (th : RankThresholds) (m : Marble) (nowMs r : ℚ) : Marble :=
  if m.warpUsed then m
  else if ¬ isTop30 th m.progressY then m
  else
    { m with warpUsed := true
             posX := 585 + r * 110
             posY := 4700
             velX := 0
             velY := 2000
             angVel := 0
             progressY := 4700
             lastProgressY := 4700
             lastY := 4700
             lastMovedAtMs := nowMs }

/-- Which branch of the anti-stuck chain in `stepOnce` fired. -/
inductive StuckAction where
  | progressReset : StuckAction
  | rescueKickFinish : StuckAction
  | rescueKickUp : StuckAction
  | rescueTeleport : StuckAction
  | nudgeFinish : StuckAction
  | nudgeDown : StuckAction
  | idle : StuckAction
deriving DecidableEq, Repr

/-- Random draws a single anti-stuck step can consume, each the value of a
`(Math.random() * 2 - 1)` or `Math.random()` expression as noted per use. -/
structure StuckRand where
  r1 : ℚ
  r2 : ℚ
  r3 : ℚ
deriving DecidableEq, Repr

/-- The anti-stuck / rescue chain of `stepOnce` (the
`progressed > 6` / 1.4s-rescue / 2.8s-nudge `else if` ladder).
`speed = Math.hypot(v.x, v.y)` is passed in; `ux, uy` stand for the unit
vector from the marble toward the cup (`(dx/len, dy/len)`), consumed by the
impulse branches; impulses are modelled as velocity increments. -/
def stuckStep (phaseRunning : Bool) (nowMs speed : ℚ) (rnd : StuckRand) (ux uy : ℚ)
    (m : Marble) : Marble × StuckAction :=
  let progressed := m.progressY - m.lastProgressY
  if 6 < progressed then
    ({ m with lastProgressY := m.progressY, lastMovedAtMs := nowMs,
              rescueCount := 0, rescueCooldownUntilMs := 0 }, .progressReset)
  else if phaseRunning ∧ m.rescueCooldownUntilMs ≤ nowMs ∧ 1400 < nowMs - m.lastMovedAtMs ∧ speed < 28 then
    let m1 := { m with rescueCooldownUntilMs := nowMs + 1800, lastMovedAtMs := nowMs }
    if m1.rescueCount = 0 then
      let m2 := { m1 with rescueCount := 1 }
      if CUP_Y - 1600 < m2.posY then
        ({ m2 with velX := m2.velX + ux * 2000, velY := m2.velY + uy * 2400,
                   angVel := rnd.r2 * 14 }, .rescueKickFinish)
      else
        ({ m2 with velX := rnd.r1 * 1100, velY := -3400, angVel := rnd.r2 * 14 }, .rescueKickUp)
    else
      ({ m1 with rescueCount := 0
                 posX := 140 + rnd.r1 * (WORLD_W - 280)
                 posY := 48 + rnd.r2 * 96
                 velX := rnd.r3 * 260
                 velY := 1300 + rnd.r3 * 520
                 angVel := rnd.r3 * 10 }, .rescueTeleport)
  else if m.stuckCooldownUntilMs ≤ nowMs ∧ 2800 < nowMs - m.lastMovedAtMs ∧ speed < 60 then
    let m1 := { m with stuckCooldownUntilMs := nowMs + 2000, lastMovedAtMs := nowMs }
    if CUP_Y - 1200 < m1.posY then
      ({ m1 with velX := m1.velX + ux * 900, velY := m1.velY + uy * 900 }, .nudgeFinish)
    else
      ({ m1 with velX := m1.velX + rnd.r1 * 520, velY := m1.velY + 520 + rnd.r2 * 260 }, .nudgeDown)
  else (m, .idle)

/-- The anti-tunneling speed clamp of `stepOnce` (`speed > maxSpeed`); the
scale factor `s = 7000 / speed` is passed in by the caller that computed
`speed = Math.hypot(v.x, v.y)`. -/
def speedClampVel (m : Marble) (speed s : ℚ) : Marble :=
  if 7000 < speed then { m with velX := m.velX * s, velY := m.velY * s } else m

/-- `tryBoost`: per-agent 900ms cooldown, then a rank-conditional velocity
response — catch-up floor for bottom-30%, debuff with wobble (`r1`) for
top-10%, mild boost otherwise. -/
def tryBoost (th : RankThresholds) (m : Marble) (nowMs r1 : ℚ) : Marble :=
  if nowMs < m.boostCooldownUntilMs then m
  else
    let m1 := { m with boostCooldownUntilMs := nowMs + 900 }
    if isBottom30 th m1.progressY then
      { m1 with velX := m1.velX * (3 / 5), velY := max m1.velY 3000 }
    else if isTop10 th m1.progressY then
      { m1 with velX := m1.velX * (2 / 5) + r1 * 420, velY := m1.velY * (7 / 20) }
    else
      { m1 with velX := m1.velX * (7 / 10), velY := max m1.velY 2500 }

/-- Per-zone state of the slow pad (`slowByHandle` entry). -/
structure SlowPad where
  factor : ℚ
  cooldownMs : ℚ
  lastAtMs : ℚ
deriving DecidableEq, Repr

/-- `trySlow`: per-zone cooldown, uniform deceleration with a stronger
factor for top-10% agents; `r1` is the angular-velocity jitter draw. -/
def trySlow (th : RankThresholds) (pad : SlowPad) (m : Marble) (nowMs r1 : ℚ) :
    SlowPad × Marble :=
  if nowMs - pad.lastAtMs < pad.cooldownMs then (pad, m)
  else
    let pad1 := { pad with lastAtMs := nowMs }
    let factor := if isTop10 th m.progressY then min (1 / 4) (pad.factor * (3 / 5)) else pad.factor
    (pad1, { m with velX := m.velX * (11 / 20), velY := m.velY * factor, angVel := r1 * 6 })

/-- Per-zone state of the magnet pit (`magnetByHandle` entry). -/
structure MagnetPit where
  x : ℚ
  pullY : ℚ
  durationMs : ℚ
  cooldownMs : ℚ
  lastAtMs : ℚ
deriving DecidableEq, Repr

/-- `tryMagnet`: per-zone cooldown, affects only top-10% agents; snaps the
velocity down and arms the sustained pull (`magnetUntilMs`). -/
def tryMagnet (th : RankThresholds) (pit : MagnetPit) (m : Marble) (nowMs : ℚ) :
    MagnetPit × Marble :=
  if nowMs - pit.lastAtMs < pit.cooldownMs then (pit, m)
  else
    let pit1 := { pit with lastAtMs := nowMs }
    if ¬ isTop10 th m.progressY then (pit1, m)
    else
      (pit1, { m with magnetUntilMs := nowMs + pit.durationMs
                      magnetX := pit.x
                      magnetY := pit.pullY
                      velX := m.velX * (3 / 25)
                      velY := m.velY * (3 / 50) })

/-- The radial impulse `tryBomb` applies to one living marble within range;
`dist = Math.sqrt(max(1, d2))` and the unit direction `(nx, ny)` are passed
in by the caller. -/
def bombImpulse (power radius dist nx ny : ℚ) (m : Marble) : Marble :=
  let falloff := 1 - clampQ (dist / radius) 0 1
  let base := power * falloff
  { m with velX := m.velX + nx * base, velY := m.velY + (ny * base - base * (7 / 20)) }

/-- `tryKicker` for a pop bumper (`playSfx = true` path): per-agent
cooldown, then a strong outgoing velocity scaled to
`max(currentSpeed, power)` with jitter; `dx, dy` is the unit direction away
from the kicker (random when degenerate), `speed0` the current speed. -/
def tryKicker (power cooldownMs : ℚ) (towardCenter : Bool)
    (m : Marble) (nowMs speed0 dx dy r1 r2 : ℚ) : Marble :=
  if nowMs < m.kickerCooldownUntilMs then m
  else
    let m1 := { m with kickerCooldownUntilMs := nowMs + cooldownMs }
    let dirX := if towardCenter then -dx else dx
    let kick := max speed0 power
    let jitter := r1 * (kick * (7 / 50))
    { m1 with velX := dirX * kick + jitter
              velY := clampQ (dy * kick - kick * (39 / 50)) (-6200) 5200
              angVel := r2 * (15 / 2) }

/-- The resource-lifecycle view of one agent: its terminal flag and how many
times its physics body/collider pair has been released
(`world.removeCollider` + `world.removeRigidBody` in `removeFromWorld`). -/
structure AgentRes where
  isEliminated : Bool
  releasedCount : ℕ
deriving DecidableEq, Repr

/-- The `eliminatedBy` fall/cut counters. -/
structure ElimCounters where
  fall : ℕ
  cut : ℕ
deriving DecidableEq, Repr

/-- Elimination reason (`'fall' | 'cut'`). -/
inductive ElimReason where
  | fall : ElimReason
  | cut : ElimReason
deriving DecidableEq, Repr

/-- `removeFromWorld`: no-op on an already-eliminated agent, otherwise set
the terminal flag and release the body and collider (counted once). -/
def removeFromWorldRes (a : AgentRes) : AgentRes :=
  if a.isEliminated then a
  else { isEliminated := true, releasedCount := a.releasedCount + 1 }

/-- `eliminate`: no-op on an already-eliminated agent, otherwise bump the
reason counter and remove from the world. -/
def eliminateRes (reason : ElimReason) (a : AgentRes) (c : ElimCounters) :
    AgentRes × ElimCounters :=
  if a.isEliminated then (a, c)
  else
    let c1 := match reason with
      | .fall => { c with fall := c.fall + 1 }
      | .cut => { c with cut := c.cut + 1 }
    (removeFromWorldRes a, c1)

/-- The engine operations that can touch one agent's terminal flag:
`removeFromWorld` directly (cup sink) or `eliminate` with a reason
(fall out of bounds, checkpoint cut). -/
inductive ElimOp where
  | remove : ElimOp
  | elim : ElimReason → ElimOp
deriving DecidableEq, Repr

/-- Dispatch one elimination-related operation. -/
def applyElimOp (s : AgentRes × ElimCounters) : ElimOp → AgentRes × ElimCounters
  | .remove => (removeFromWorldRes s.1, s.2)
  | .elim r => eliminateRes r s.1 s.2

/-- Run a sequence of elimination-related operations on one agent. -/
def runElimOps (ops : List ElimOp) (s : AgentRes × ElimCounters) : AgentRes × ElimCounters :=
  ops.foldl applyElimOp s

/-- One finish-record row (`CupEntry`). -/
structure CupEntry where
  id : ℕ
  name : String
  colorHex : String
  atMs : ℚ
deriving DecidableEq, Repr

/-- `recordCupEntry`: deduplicated append.  The source keeps `cupEntryById`
as an id index of `cupEntries`; the membership test embeds the
`cupEntryById.has(id)` lookup. -/
def recordCupEntry (entries : List CupEntry) (e : CupEntry) : List CupEntry :=
  if entries.any (fun x => x.id = e.id) then entries else entries ++ [e]

/-- The round phase (`MarblesPhase`). -/
inductive Phase where
  | idle : Phase
  | running : Phase
  | finished : Phase
deriving DecidableEq, Repr

/-- `finishState` record. -/
structure FinishState where
  winnerId : ℕ
  postEndsAtMs : ℚ
  stopAtMs : ℚ
deriving DecidableEq, Repr

/-- `winner` record. -/
structure Winner where
  id : ℕ
  name : String
  colorHex : String
deriving DecidableEq, Repr

/-- `POST_FINISH_MS = 10s`. -/
def POST_FINISH_MS : ℚ := 10000

/-- `POST_FINISH_RUN_MS = 10s`. -/
def POST_FINISH_RUN_MS : ℚ := 10000

/-- `TOP10_FINISHERS_TARGET = 10`. -/
def TOP10_FINISHERS_TARGET : ℕ := 10

/-- `FAST_FORWARD_SCALE = 2`. -/
def FAST_FORWARD_SCALE : ℚ := 2

/-- The round-lifecycle slice of the engine state. -/
structure RoundState where
  phase : Phase
  minRoundEndsAtMs : ℚ
  cupEntries : List CupEntry
  finishState : Option FinishState
  winner : Option Winner
  winnerToastUntilMs : ℚ
  fastForwardOn : Bool
  timeScale : ℚ
deriving DecidableEq, Repr

/-- `beginFinishSequence`: guarded by phase, an existing finish state and a
non-empty finish record; fixes the winner as the first record entry and
opens the post-finish window.  (Its camera repositioning is part of the
camera model.) -/
def beginFinishSequence (s : RoundState) (nowMs : ℚ) : RoundState :=
  if s.phase ≠ .running then s
  else if s.finishState.isSome then s
  else
    match s.cupEntries.head? with
    | none => s
    | some first =>
      { s with winner := some ⟨first.id, first.name, first.colorHex⟩
               finishState := some ⟨first.id, nowMs + POST_FINISH_MS, nowMs + POST_FINISH_RUN_MS⟩ }

/-- `endRound`: terminal transition to `finished`; re-fixes the winner as
the first finish-record entry.  (Camera-focus cleanup is part of the camera
model.) -/
def endRound (s : RoundState) : RoundState :=
  if s.phase ≠ .running then s
  else
    match s.cupEntries.head? with
    | none => s
    | some first =>
      { s with winner := some ⟨first.id, first.name, first.colorHex⟩
               phase := .finished
               finishState := none }

/-- The fast-forward arming statement of `onCupEntry`. -/
def cupFastForwardStep (s : RoundState) : RoundState :=
  if ¬ s.fastForwardOn ∧ TOP10_FINISHERS_TARGET ≤ s.cupEntries.length then
    { s with fastForwardOn := true, timeScale := FAST_FORWARD_SCALE }
  else s

/-- The winner-candidate statement of `onCupEntry`
(`if (!this.winner && this.cupEntries.length > 0)`). -/
def cupWinnerStep (s : RoundState) (nowMs : ℚ) : RoundState :=
  if s.winner = none ∧ 0 < s.cupEntries.length then
    match s.cupEntries.head? with
    | some first =>
      { s with winner := some ⟨first.id, first.name, first.colorHex⟩
               winnerToastUntilMs := nowMs + 6000 }
    | none => s
  else s

/-- The immediate finish check at the end of `onCupEntry`
(`phase === 'running' && nowMs >= minRoundEndsAtMs && cupEntries.length > 0`). -/
def cupFinishStep (s : RoundState) (nowMs : ℚ) : RoundState :=
  if s.phase = .running ∧ s.minRoundEndsAtMs ≤ nowMs ∧ 0 < s.cupEntries.length then
    beginFinishSequence s nowMs
  else s

/-- The round-lifecycle effect of `onCupEntry` for a non-eliminated marble
(the marble-level cup sink `removeFromWorld` is covered by the elimination
model): record the entry, maybe arm fast-forward, set the winner candidate
on the first entry, and begin the finish sequence when the minimum round
time has already passed. -/
def onCupEntryRound (s : RoundState) (e : CupEntry) (nowMs : ℚ) : RoundState :=
  cupFinishStep (cupWinnerStep (cupFastForwardStep
    { s with cupEntries := recordCupEntry s.cupEntries e }) nowMs) nowMs

/-- The finish-trigger tail of `onTick`: while a finish state exists, end
the round at its hard stop; otherwise begin the finish sequence as soon as
the minimum round time has elapsed and at least one finisher is recorded. -/
def tickFinishCheck (s : RoundState) (nowMs : ℚ) : RoundState :=
  match s.finishState with
  | some fs => if fs.stopAtMs ≤ nowMs then endRound s else s
  | none =>
    if s.minRoundEndsAtMs ≤ nowMs ∧ 0 < s.cupEntries.length then beginFinishSequence s nowMs
    else s

/-- Ascending comparison on `progressY` (the `applyCut` sort comparator). -/
def progLE (a b : Marble) : Prop := a.progressY ≤ b.progressY

instance : DecidableRel progLE := fun a b => inferInstanceAs (Decidable (a.progressY ≤ b.progressY))

instance : IsTotal Marble progLE := ⟨fun a b => le_total a.progressY b.progressY⟩

instance : IsTrans Marble progLE := ⟨fun _ _ _ hab hbc => le_trans hab hbc⟩

/-- `applyCut(cutCount)`: guarded by `cutCount >= 5` and at least 50 alive
agents; eliminates the `cutCount` lowest-progress alive agents (stable
ascending sort, matching the stable JS sort).  Returns the updated agent
list and the number of `eliminate(..., 'cut')` calls performed. -/
def applyCut (cutCount : ℕ) (marbles : List Marble) : List Marble × ℕ :=
  if cutCount < 5 then (marbles, 0)
  else
    let alive := marbles.filter (fun m => !m.isEliminated)
    if alive.length < 50 then (marbles, 0)
    else
      let sorted := List.insertionSort progLE alive
      let victims := (sorted.take cutCount).map (fun m => m.id)
      (marbles.map (fun m => if victims.contains m.id then { m with isEliminated := true } else m),
        (sorted.take cutCount).length)

/-- Active checkpoint-cut announcement (`cutState`). -/
structure CutState where
  checkpointNumber : ℕ
  endsAtMs : ℚ
  cutCount : ℕ
deriving DecidableEq, Repr

/-- The checkpoint-cut controller slice of the engine state. -/
structure CutCtrl where
  checkpointIndex : ℕ
  cutState : Option CutState
deriving DecidableEq, Repr

/-- `checkpointsY = [2800, 6400]`. -/
def checkpointsY : List ℚ := [2800, 6400]

/-- The checkpoint-cut block of `stepOnce`: execute a due announced cut and
advance, or announce a new cut (`floor(aliveCount * 0.1)`, only when at
least 5 would be removed; otherwise skip the checkpoint). -/
def cutTick (ctrl : CutCtrl) (nowMs leaderProgress : ℚ) (aliveCount : ℕ)
    (marbles : List Marble) : CutCtrl × List Marble × ℕ :=
  match ctrl.cutState with
  | some cs =>
    if cs.endsAtMs ≤ nowMs then
      let r := applyCut cs.cutCount marbles
      (⟨ctrl.checkpointIndex + 1, none⟩, r.1, r.2)
    else (ctrl, marbles, 0)
  | none =>
    if h : ctrl.checkpointIndex < checkpointsY.length then
      if checkpointsY.get ⟨ctrl.checkpointIndex, h⟩ ≤ leaderProgress then
        let cutCount := aliveCount / 10
        if 5 ≤ cutCount then
          ({ ctrl with cutState := some ⟨ctrl.checkpointIndex + 1, nowMs + 3000, cutCount⟩ },
            marbles, 0)
        else (⟨ctrl.checkpointIndex + 1, none⟩, marbles, 0)
      else (ctrl, marbles, 0)
    else (ctrl, marbles, 0)

/-- Camera mode. -/
inductive CamMode where
  | auto : CamMode
  | focus : CamMode
  | manual : CamMode
deriving DecidableEq, Repr

/-- The one-slot peek save (`peekReturn`).  The `focusName` string mirror of
`focusId` is omitted. -/
structure PeekReturn where
  mode : CamMode
  x : ℚ
  y : ℚ
  focusUntilMs : ℚ
  focusId : Option ℕ
  manualUntilMs : ℚ
deriving DecidableEq, Repr

/-- The camera state (`CameraState`), with `focusName` omitted as above. -/
structure Camera where
  x : ℚ
  y : ℚ
  mode : CamMode
  focusUntilMs : ℚ
  focusId : Option ℕ
  manualUntilMs : ℚ
  peekUntilMs : ℚ
  peekReturn : Option PeekReturn
  shakeUntilMs : ℚ
  shakeAmp : ℚ
deriving DecidableEq, Repr

/-- Screen constants consumed by `updateCamera`.  `SCREEN_W/SCREEN_H` and
`CAMERA_Y_ANCHOR` come from `view.ts`, which is outside the embedded
sources, so they are kept abstract; every camera theorem holds for all
values. -/
structure CamCfg where
  screenW : ℚ
  screenH : ℚ
  anchorY : ℚ
deriving DecidableEq, Repr

/-- The per-agent data `updateCamera` reads from an alive marble. -/
structure AlivePos where
  id : ℕ
  posX : ℚ
  posY : ℚ
  progressY : ℚ
deriving DecidableEq, Repr

/-- Descending comparison on `progressY` (the auto-follow sort). -/
def progGE (a b : AlivePos) : Prop := b.progressY ≤ a.progressY

instance : DecidableRel progGE := fun a b => inferInstanceAs (Decidable (b.progressY ≤ a.progressY))

instance : IsTotal AlivePos progGE := ⟨fun a b => le_total b.progressY a.progressY⟩

instance : IsTrans AlivePos progGE := ⟨fun _ _ _ hab hbc => le_trans hbc hab⟩

/-- The shared tail of `updateCamera`: clamp the desired position derived
from the target and smooth toward it (`lerp = 1` in manual mode, `0.12`
otherwise). -/
def camApplyTarget (cfg : CamCfg) (cam : Camera) (targetX targetY : ℚ) : Camera :=
  let desiredY := clampQ (targetY - cfg.screenH * cfg.anchorY) 0 (WORLD_H - cfg.screenH)
  let desiredX := clampQ (targetX - cfg.screenW / 2) 0 (WORLD_W - cfg.screenW)
  let lerp := if cam.mode = .manual then 1 else (3 / 25)
  { cam with y := cam.y + (desiredY - cam.y) * lerp, x := cam.x + (desiredX - cam.x) * lerp }

/-- The auto-follow target: the alive agents sorted by progress descending,
preferring the first whose displayed position does not lag its recorded
progress by 1200 or more (teleport snap avoidance), else the raw leader. -/
def autoTarget (alive : List AlivePos) : Option (ℚ × ℚ) :=
  let sorted := List.insertionSort progGE alive
  match (sorted.find? (fun m => m.progressY - m.posY < 1200)).orElse (fun _ => sorted.head?) with
  | some leader => some (leader.posX, leader.posY)
  | none => none

/-- The manual-expiry / peek-restore block at the top of `updateCamera`,
taken when manual mode has expired. -/
def camPeekRestore (cam0 : Camera) (nowMs : ℚ) : Camera :=
  match cam0.peekReturn with
  | some r =>
    if cam0.peekUntilMs ≤ nowMs then
      { cam0 with peekReturn := none, peekUntilMs := 0, mode := r.mode, x := r.x, y := r.y,
                  focusUntilMs := r.focusUntilMs, focusId := r.focusId,
                  manualUntilMs := r.manualUntilMs }
    else { cam0 with mode := .auto }
  | none => { cam0 with mode := .auto }

/-- The manual-expiry guard of `updateCamera`. -/
def camManualExpiryStep (cam0 : Camera) (nowMs : ℚ) : Camera :=
  if cam0.mode = .manual ∧ cam0.manualUntilMs ≤ nowMs then camPeekRestore cam0 nowMs else cam0

/-- The focus-expiry guard of `updateCamera`. -/
def camFocusExpiryStep (cam1 : Camera) (nowMs : ℚ) : Camera :=
  if cam1.mode = .focus ∧ cam1.focusUntilMs ≤ nowMs then
    { cam1 with mode := .auto, focusUntilMs := 0, focusId := none }
  else cam1

/-- The focus/auto target resolution branch of `updateCamera` (taken only
when the camera is not in manual mode after expiry handling). -/
def camFocusAutoUpdate (cfg : CamCfg) (alive : List AlivePos) (cam2 : Camera) : Camera :=
  let fr : Camera × Option (ℚ × ℚ) :=
    if cam2.mode = .focus then
      match cam2.focusId with
      | some fid =>
        match alive.find? (fun m => m.id = fid) with
        | some t => (cam2, some (t.posX, t.posY))
        | none => ({ cam2 with mode := .auto, focusUntilMs := 0, focusId := none }, none)
      | none => (cam2, none)
    else (cam2, none)
  let cam3 := fr.1
  let target :=
    match fr.2 with
    | some t => t
    | none =>
      if cam3.mode ≠ .focus then (autoTarget alive).getD (WORLD_W / 2, 0)
      else (WORLD_W / 2, 0)
  camApplyTarget cfg cam3 target.1 target.2

/-- `updateCamera`: mode expiry (manual peek restore, focus expiry), target
resolution per mode, then clamp-and-smooth.  The additive shake offset is
applied to the emitted container position only (see `emittedCameraPos`),
never to the stored camera position. -/
def updateCamera (cfg : CamCfg) (alive : List AlivePos) (nowMs : ℚ) (cam0 : Camera) : Camera :=
  if alive.isEmpty then cam0
  else
    let cam2 := camFocusExpiryStep (camManualExpiryStep cam0 nowMs) nowMs
    if cam2.mode = .manual then
      camApplyTarget cfg cam2 (cam2.x + cfg.screenW / 2) (cam2.y + cfg.screenH * cfg.anchorY)
    else
      camFocusAutoUpdate cfg alive cam2

/-- The emitted (container) position: the stored camera position with the
time-bounded shake offset layered additively on top (`r1, r2 ∈ [-1, 1]` are
the shake draws). -/
def emittedCameraPos (cam : Camera) (nowMs r1 r2 : ℚ) : ℚ × ℚ :=
  let sx := if nowMs < cam.shakeUntilMs then r1 * cam.shakeAmp else 0
  let sy := if nowMs < cam.shakeUntilMs then r2 * cam.shakeAmp else 0
  (-cam.x + sx, -cam.y + sy)

/-! ## Theorems -/

theorem applyElimOp_eliminated (op : ElimOp) (r : ℕ) (c : ElimCounters) :
    applyElimOp (⟨true, r⟩, c) op = (⟨true, r⟩, c) := by
  cases op <;> simp [applyElimOp, removeFromWorldRes, eliminateRes]

theorem elim_released_invariant (ops : List ElimOp) :
    ∀ (a : AgentRes) (c : ElimCounters),
      a.releasedCount = (if a.isEliminated then 1 else 0) →
      ((runElimOps ops (a, c)).1).releasedCount
        = if ((runElimOps ops (a, c)).1).isEliminated then 1 else 0 := by
  induction ops with
  | nil => intro a c h; simpa [runElimOps] using h
  | cons op rest ih =>
    intro a c h
    have hstep : ((applyElimOp (a, c) op).1).releasedCount
        = if ((applyElimOp (a, c) op).1).isEliminated then 1 else 0 := by
      cases op with
      | remove =>
        by_cases he : a.isEliminated
        · simp [applyElimOp, removeFromWorldRes, he, h]
        · simp [he] at h
          simp [applyElimOp, removeFromWorldRes, he, h]
      | elim reason =>
        by_cases he : a.isEliminated
        · cases reason <;> simp [applyElimOp, eliminateRes, he, h]
        · simp [he] at h
          cases reason <;> simp [applyElimOp, eliminateRes, removeFromWorldRes, he, h]
    have : runElimOps (op :: rest) (a, c) = runElimOps rest (applyElimOp (a, c) op) := rfl
    rw [this]
    have := ih (applyElimOp (a, c) op).1 (applyElimOp (a, c) op).2 hstep
    simpa using this

/-- C4: an agent's `isEliminated` flag goes `false → true` at most once and
is never reset: on an already-eliminated agent every elimination-related
operation (`removeFromWorld`, `eliminate`) is a complete no-op (so the
body/collider are never released twice and no counter moves), any single
operation only ever raises the flag, and starting from a live agent with
un-released resources, after any operation sequence the body/collider have
been released exactly once if the agent is eliminated and never
otherwise. -/
theorem C4_elimination_once :
    (∀ (ops : List ElimOp) (r : ℕ) (c : ElimCounters),
      runElimOps ops (⟨true, r⟩, c) = (⟨true, r⟩, c)) ∧
    (∀ (op : ElimOp) (a : AgentRes) (c : ElimCounters),
      ((a.isEliminated || ((applyElimOp (a, c) op).1).isEliminated))
        = ((applyElimOp (a, c) op).1).isEliminated) ∧
    (∀ (ops : List ElimOp) (c : ElimCounters),
      ((runElimOps ops (⟨false, 0⟩, c)).1).releasedCount
        = if ((runElimOps ops (⟨false, 0⟩, c)).1).isEliminated then 1 else 0) := by
  refine ⟨?_, ?_, ?_⟩
  · intro ops r c
    induction ops with
    | nil => rfl
    | cons op rest ih =>
      have : runElimOps (op :: rest) (⟨true, r⟩, c)
          = runElimOps rest (applyElimOp (⟨true, r⟩, c) op) := rfl
      rw [this, applyElimOp_eliminated]
      exact ih
  · intro op a c
    by_cases he : a.isEliminated
    · cases op <;> simp [applyElimOp, removeFromWorldRes, eliminateRes, he]
    · cases op <;> simp [applyElimOp, removeFromWorldRes, eliminateRes, he]
  · intro ops c
    exact elim_released_invariant ops ⟨false, 0⟩ c (by simp)

/-- C7 counterexample: on an empty alive set the threshold computation does
not yield cutoffs of 0 — it returns without assigning, leaving the reset
sentinels (`-∞` bottom cutoff, `+∞` top cutoffs) in place. -/
theorem C7_empty_thresholds_cex :
    updateRankThresholds [] initialThresholds = initialThresholds ∧
    ensureRankThresholds [] initialThresholds = initialThresholds ∧
    initialThresholds.top10Min ≠ PVal.fin 0 ∧
    initialThresholds.top30Min ≠ PVal.fin 0 ∧
    initialThresholds.bottom30Max ≠ PVal.fin 0 := by
  refine ⟨rfl, rfl, ?_, ?_, ?_⟩ <;> decide

/-- C7 (amended): over a non-empty descending-sorted alive progress list of
length `n`, the computation returns the top-10% cutoff as the progress at
rank `max 1 ⌈n·0.1⌉`, the top-30% cutoff at rank `max 1 ⌈n·0.3⌉` and the
bottom-30% cutoff as the progress at rank `max 1 ⌈n·0.3⌉` from the bottom
(all ranks in range, so the defensive index clamps never bite); on an empty
alive set it leaves the thresholds unchanged at the reset sentinels, under
which no agent qualifies for any tier. -/
theorem C7_rank_thresholds_amended :
    (∀ (sortedDesc : List ℚ) (th : RankThresholds), sortedDesc ≠ [] →
      max 1 (ceilTenth sortedDesc.length) ≤ sortedDesc.length ∧
      max 1 (ceilThreeTenths sortedDesc.length) ≤ sortedDesc.length ∧
      (updateRankThresholds sortedDesc th).top10Min
        = PVal.fin (sortedDesc.getD (max 1 (ceilTenth sortedDesc.length) - 1) 0) ∧
      (updateRankThresholds sortedDesc th).top30Min
        = PVal.fin (sortedDesc.getD (max 1 (ceilThreeTenths sortedDesc.length) - 1) 0) ∧
      (updateRankThresholds sortedDesc th).bottom30Max
        = PVal.fin (sortedDesc.getD (sortedDesc.length - max 1 (ceilThreeTenths sortedDesc.length)) 0)) ∧
    (∀ th, updateRankThresholds [] th = th) ∧
    (∀ th, ensureRankThresholds [] th = th) ∧
    (∀ p : ℚ, isTop10 initialThresholds p = false ∧ isTop30 initialThresholds p = false ∧
      isBottom30 initialThresholds p = false) := by
  refine ⟨?_, fun th => rfl, ?_, ?_⟩
  · intro sortedDesc th hne
    have hn : 0 < sortedDesc.length := List.length_pos.mpr hne
    have h10 : max 1 (ceilTenth sortedDesc.length) ≤ sortedDesc.length := by
      unfold ceilTenth; omega
    have h30 : max 1 (ceilThreeTenths sortedDesc.length) ≤ sortedDesc.length := by
      unfold ceilThreeTenths; omega
    have hne0 : sortedDesc.length ≠ 0 := by omega
    have e10 : min (max 1 (ceilTenth sortedDesc.length) - 1) (sortedDesc.length - 1)
        = max 1 (ceilTenth sortedDesc.length) - 1 := by omega
    have e30 : min (max 1 (ceilThreeTenths sortedDesc.length) - 1) (sortedDesc.length - 1)
        = max 1 (ceilThreeTenths sortedDesc.length) - 1 := by omega
    have eb : min (sortedDesc.length - max 1 (ceilThreeTenths sortedDesc.length))
          (sortedDesc.length - 1)
        = sortedDesc.length - max 1 (ceilThreeTenths sortedDesc.length) := by omega
    refine ⟨h10, h30, ?_, ?_, ?_⟩ <;>
      simp [updateRankThresholds, hne0, e10, e30, eb]
  · intro th
    unfold ensureRankThresholds
    split
    · rfl
    · simp
  · intro p
    refine ⟨rfl, rfl, rfl⟩

/-- A concrete closed instance of the amended C7 theorem: three alive agents
with progress `[5, 3, 2]` yield top-10% and top-30% cutoffs of 5 (rank 1)
and a bottom-30% cutoff of 2 (rank 1 from the bottom). -/
theorem C7_rank_thresholds_amended_witness :
    (updateRankThresholds [5, 3, 2] initialThresholds).top10Min = PVal.fin 5 ∧
    (updateRankThresholds [5, 3, 2] initialThresholds).top30Min = PVal.fin 5 ∧
    (updateRankThresholds [5, 3, 2] initialThresholds).bottom30Max = PVal.fin 2 := by
  have h := (C7_rank_thresholds_amended.1 [5, 3, 2] initialThresholds (by decide))
  refine ⟨?_, ?_, ?_⟩
  · rw [h.2.2.1]; norm_num [ceilTenth]
  · rw [h.2.2.2.1]; norm_num [ceilThreeTenths]
  · rw [h.2.2.2.2]; norm_num [ceilThreeTenths]

theorem jetScanFrom_progressY (e t : ℚ) (rand : JetRand) (prevY x : ℚ) :
    ∀ (bands : List JetBand) (i : ℕ) (m : Marble) (y : ℚ),
      ((jetScanFrom e t rand prevY x bands i m y).1).progressY = m.progressY := by
  intro bands
  induction bands with
  | nil => intro i m y; rfl
  | cons b rest ih =>
    intro i m y
    simp only [jetScanFrom]
    split
    · exact ih (i + 1) m y
    · split
      · exact ih (i + 1) m y
      · split
        · split <;> rfl
        · exact ih (i + 1) m y

/-- A rank-threshold state under which the counterexample marble counts as
top-30% (it is in fact the leader). -/
def warpCexThresholds : RankThresholds :=
  { bottom30Max := PVal.fin 3000, top10Min := PVal.fin 6100, top30Min := PVal.fin 5000 }

/-- A live marble entering the first warp zone (at depth 6100) with recorded
best progress 6100 and its one-shot warp still unused. -/
def warpCexMarble : Marble :=
  { id := 1, posX := 360, posY := 6100, velX := 0, velY := 800, angVel := 0,
    progressY := 6100, lastProgressY := 6050, lastY := 6100, jetMask := 0,
    jetCooldownUntilMs := 0, lastMovedAtMs := 29000, stuckCooldownUntilMs := 0,
    rescueCount := 0, rescueCooldownUntilMs := 0, isEliminated := false,
    warpUsed := false, boostCooldownUntilMs := 0, kickerCooldownUntilMs := 0,
    magnetUntilMs := 0, magnetX := 0, magnetY := 0 }

/-- C1 counterexample: the warp is not progress-monotone.  A top-30% marble
that reaches the warp zone at depth 6100 with recorded progress 6100 is
teleported to the fixed destination depth 4700 and its `progressY` is
re-based to 4700 — strictly below its previous recorded best progress. -/
theorem C1_warp_lowers_progress_cex :
    (tryWarp warpCexThresholds warpCexMarble 30000 (1 / 2)).progressY
      < warpCexMarble.progressY := by decide

/-- C1 (amended): every modelled engine operation on an agent except the
warp leaves `progressY` non-decreasing — the per-tick progress recording
only raises it (`max`), and the jet-band scan, anti-stuck chain, speed
clamp, boost, slow, magnet, bomb and kicker handlers never touch it — while
the warp either does nothing or re-bases `progressY` to the fixed
destination depth 4700, which lowers it exactly when the agent's recorded
progress exceeds 4700 (the warp zones sit at depths 6100 and 6400,
downstream of the destination). -/
theorem C1_progress_monotone_amended :
    (∀ (r : Bool) (m : Marble) (y : ℚ), m.progressY ≤ (progressUpdate r m y).progressY) ∧
    (∀ (p : Bool) (bands : List JetBand) (e t : ℚ) (rand : JetRand) (m : Marble) (prevY x y : ℚ),
      ((jetScan p bands e t rand m prevY x y).1).progressY = m.progressY) ∧
    (∀ (p : Bool) (t sp : ℚ) (rnd : StuckRand) (ux uy : ℚ) (m : Marble),
      ((stuckStep p t sp rnd ux uy m).1).progressY = m.progressY) ∧
    (∀ (m : Marble) (sp s : ℚ), (speedClampVel m sp s).progressY = m.progressY) ∧
    (∀ (th : RankThresholds) (m : Marble) (t r : ℚ),
      (tryBoost th m t r).progressY = m.progressY) ∧
    (∀ (th : RankThresholds) (pad : SlowPad) (m : Marble) (t r : ℚ),
      ((trySlow th pad m t r).2).progressY = m.progressY) ∧
    (∀ (th : RankThresholds) (pit : MagnetPit) (m : Marble) (t : ℚ),
      ((tryMagnet th pit m t).2).progressY = m.progressY) ∧
    (∀ (pw rad d nx ny : ℚ) (m : Marble), (bombImpulse pw rad d nx ny m).progressY = m.progressY) ∧
    (∀ (pw cd : ℚ) (tc : Bool) (m : Marble) (t s dx dy r1 r2 : ℚ),
      (tryKicker pw cd tc m t s dx dy r1 r2).progressY = m.progressY) ∧
    (∀ (th : RankThresholds) (m : Marble) (t r : ℚ),
      tryWarp th m t r = m ∨ (tryWarp th m t r).progressY = 4700) := by
  refine ⟨?_, ?_, ?_, ?_, ?_, ?_, ?_, ?_, ?_, ?_⟩
  · intro r m y
    simp [progressUpdate]
  · intro p bands e t rand m prevY x y
    unfold jetScan
    split
    · exact jetScanFrom_progressY e t rand prevY x bands 0 m y
    · rfl
  · intro p t sp rnd ux uy m
    simp only [stuckStep]
    split
    · rfl
    · split
      · split
        · split <;> rfl
        · rfl
      · split
        · split <;> rfl
        · rfl
  · intro m sp s
    unfold speedClampVel
    split <;> rfl
  · intro th m t r
    simp only [tryBoost]
    split
    · rfl
    · split
      · rfl
      · split <;> rfl
  · intro th pad m t r
    unfold trySlow
    split <;> rfl
  · intro th pit m t
    unfold tryMagnet
    split
    · rfl
    · split <;> rfl
  · intro pw rad d nx ny m
    rfl
  · intro pw cd tc m t s dx dy r1 r2
    unfold tryKicker
    split <;> rfl
  · intro th m t r
    unfold tryWarp
    split
    · exact Or.inl rfl
    · split
      · exact Or.inl rfl
      · exact Or.inr rfl

theorem jetScanFrom_idx_ge (e t : ℚ) (rand : JetRand) (prevY x : ℚ) :
    ∀ (bands : List JetBand) (i : ℕ) (m : Marble) (y : ℚ) (j : ℕ),
      ((jetScanFrom e t rand prevY x bands i m y).2.2 = JetResult.bounce j ∨
        (jetScanFrom e t rand prevY x bands i m y).2.2 = JetResult.jackpot j) →
      i ≤ j := by
  intro bands
  induction bands with
  | nil =>
    intro i m y j h
    rcases h with h | h <;> exact absurd h (by simp [jetScanFrom])
  | cons b rest ih =>
    intro i m y j h
    simp only [jetScanFrom] at h
    split at h
    · exact Nat.le_of_succ_le (ih (i + 1) m y j h)
    · split at h
      · exact Nat.le_of_succ_le (ih (i + 1) m y j h)
      · split at h
        · split at h
          · rcases h with h | h <;> simp at h <;> omega
          · rcases h with h | h <;> simp at h <;> omega
        · exact Nat.le_of_succ_le (ih (i + 1) m y j h)

/-- C6: a marble crossing jet band index 0 downward before its expiry time,
off its jet cooldown and with band 0 not yet marked passed, is never
granted the jackpot pass: the scan always reports a bounce at band 0, the
marble is reset just above the band (`y = band.y - 44`) with an upward
vertical velocity and a horizontal velocity aimed loosely at the cup, and
band 0 is marked passed; once that bit is set, the scan can never again
deny (or jackpot) the same marble at band 0, so gate 0 bounces each agent
exactly once before letting it through. -/
theorem C6_gate0_always_bounces
    (b0 : JetBand) (rest : List JetBand) (e t : ℚ) (rand : JetRand) (m : Marble)
    (prevY x y : ℚ)
    (hact : e < b0.activeUntilMs)
    (hmask : m.jetMask &&& (1 <<< 0) = 0)
    (hcross1 : prevY < b0.y) (hcross2 : b0.y ≤ y)
    (hcd : m.jetCooldownUntilMs ≤ t) :
    ((jetScan true (b0 :: rest) e t rand m prevY x y).2.2 = JetResult.bounce 0 ∧
      ((jetScan true (b0 :: rest) e t rand m prevY x y).1).posY = b0.y - 44 ∧
      ((jetScan true (b0 :: rest) e t rand m prevY x y).1).velY = -(min b0.upVel 1900) ∧
      ((jetScan true (b0 :: rest) e t rand m prevY x y).1).velX
        = clampQ ((CUP_X - x) * (11 / 5) + rand.r1 * 900) (-3200) 3200 ∧
      ((jetScan true (b0 :: rest) e t rand m prevY x y).1).jetMask
        = m.jetMask ||| (1 <<< 0) ∧
      ((jetScan true (b0 :: rest) e t rand m prevY x y).1).jetMask &&& (1 <<< 0) ≠ 0) ∧
    (∀ (m2 : Marble) (e2 t2 : ℚ) (rand2 : JetRand) (prevY2 x2 y2 : ℚ),
      m2.jetMask &&& (1 <<< 0) ≠ 0 →
      (jetScan true (b0 :: rest) e2 t2 rand2 m2 prevY2 x2 y2).2.2 ≠ JetResult.bounce 0 ∧
      (jetScan true (b0 :: rest) e2 t2 rand2 m2 prevY2 x2 y2).2.2 ≠ JetResult.jackpot 0) := by
  constructor
  · have hguard : (true = true ∧ (b0 :: rest) ≠ [] ∧ prevY < y ∧ m.jetCooldownUntilMs ≤ t) := by
      exact ⟨rfl, by simp, lt_of_lt_of_le hcross1 hcross2, hcd⟩
    unfold jetScan
    rw [if_pos hguard]
    simp only [jetScanFrom]
    rw [if_neg (not_le.mpr hact), if_neg (by simpa using hmask), if_pos ⟨hcross1, hcross2⟩,
      if_neg (by simp)]
    refine ⟨rfl, rfl, rfl, rfl, by simp, ?_⟩
    simp [Nat.and_one_is_mod, Nat.or_mod_two_eq_one]
  · intro m2 e2 t2 rand2 prevY2 x2 y2 hm2
    unfold jetScan
    split
    · simp only [jetScanFrom]
      by_cases hexp : b0.activeUntilMs ≤ e2
      · rw [if_pos hexp]
        constructor
        · intro hc
          have := jetScanFrom_idx_ge e2 t2 rand2 prevY2 x2 rest 1 m2 y2 0 (Or.inl hc)
          omega
        · intro hc
          have := jetScanFrom_idx_ge e2 t2 rand2 prevY2 x2 rest 1 m2 y2 0 (Or.inr hc)
          omega
      · rw [if_neg hexp, if_pos (by simpa using hm2)]
        constructor
        · intro hc
          have := jetScanFrom_idx_ge e2 t2 rand2 prevY2 x2 rest 1 m2 y2 0 (Or.inl hc)
          omega
        · intro hc
          have := jetScanFrom_idx_ge e2 t2 rand2 prevY2 x2 rest 1 m2 y2 0 (Or.inr hc)
          omega
    · simp

/-- A live marble approaching jet band 0 with no band yet passed. -/
def gateMarble : Marble :=
  { id := 7, posX := 640, posY := 2865, velX := 0, velY := 1500, angVel := 0,
    progressY := 2850, lastProgressY := 2800, lastY := 2850, jetMask := 0,
    jetCooldownUntilMs := 0, lastMovedAtMs := 9000, stuckCooldownUntilMs := 0,
    rescueCount := 0, rescueCooldownUntilMs := 0, isEliminated := false,
    warpUsed := false, boostCooldownUntilMs := 0, kickerCooldownUntilMs := 0,
    magnetUntilMs := 0, magnetX := 0, magnetY := 0 }

/-- Closed instance of C6: the concrete band list of `buildMap` at 10s of
elapsed time, a marble crossing 2850 → 2865 over band 0 at `y = 2860`, and
a jackpot roll of 0 (which would pass any later gate) still bounces. -/
theorem C6_gate0_always_bounces_witness :
    (jetScan true (⟨2860, 28000, 2800⟩ :: [⟨5200, 52000, 3200⟩, ⟨CUP_Y - 980, 70000, 3600⟩])
        10000 10500 ⟨0, 1 / 2⟩ gateMarble 2850 640 2865).2.2 = JetResult.bounce 0 := by
  have h := C6_gate0_always_bounces ⟨2860, 28000, 2800⟩
    [⟨5200, 52000, 3200⟩, ⟨CUP_Y - 980, 70000, 3600⟩] 10000 10500 ⟨0, 1 / 2⟩ gateMarble
    2850 640 2865 (by norm_num) (by decide) (by norm_num) (by norm_num)
    (by norm_num [gateMarble])
  exact h.1.1

theorem recordCupEntry_ne_nil (l : List CupEntry) (e : CupEntry) : recordCupEntry l e ≠ [] := by
  unfold recordCupEntry
  split
  · rename_i hany
    intro hl
    subst hl
    simp at hany
  · simp

theorem cupFastForwardStep_fields (s : RoundState) :
    (cupFastForwardStep s).phase = s.phase ∧
    (cupFastForwardStep s).winner = s.winner ∧
    (cupFastForwardStep s).cupEntries = s.cupEntries ∧
    (cupFastForwardStep s).minRoundEndsAtMs = s.minRoundEndsAtMs ∧
    (cupFastForwardStep s).finishState = s.finishState := by
  unfold cupFastForwardStep
  split <;> simp

theorem cupWinnerStep_fields (s : RoundState) (now : ℚ) :
    (cupWinnerStep s now).phase = s.phase ∧
    (cupWinnerStep s now).cupEntries = s.cupEntries ∧
    (cupWinnerStep s now).minRoundEndsAtMs = s.minRoundEndsAtMs ∧
    (cupWinnerStep s now).finishState = s.finishState := by
  unfold cupWinnerStep
  split
  · cases hc : s.cupEntries.head? <;> simp
  · simp

theorem cupWinnerStep_winner_ne_none (s : RoundState) (now : ℚ) (h : s.cupEntries ≠ []) :
    (cupWinnerStep s now).winner ≠ none := by
  unfold cupWinnerStep
  by_cases hw : s.winner = none
  · rw [if_pos ⟨hw, List.length_pos.mpr h⟩]
    cases hc : s.cupEntries with
    | nil => exact absurd hc h
    | cons a l => simp [hc]
  · rw [if_neg (by simp [hw])]
    exact hw

theorem beginFinishSequence_frame (s : RoundState) (now : ℚ) :
    (beginFinishSequence s now).phase = s.phase ∧
    (beginFinishSequence s now).cupEntries = s.cupEntries := by
  unfold beginFinishSequence
  split
  · simp
  · split
    · simp
    · cases hc : s.cupEntries.head? <;> simp

theorem beginFinishSequence_starts (s : RoundState) (now : ℚ) (hp : s.phase = .running)
    (hf : s.finishState = none) (hne : s.cupEntries ≠ []) :
    ((beginFinishSequence s now).finishState).map FinishState.stopAtMs
      = some (now + POST_FINISH_RUN_MS) ∧
    ((beginFinishSequence s now).finishState).map FinishState.winnerId
      = s.cupEntries.head?.map CupEntry.id ∧
    (beginFinishSequence s now).winner
      = s.cupEntries.head?.map (fun c => ⟨c.id, c.name, c.colorHex⟩) := by
  unfold beginFinishSequence
  rw [if_neg (by simp [hp]), if_neg (by simp [hf])]
  cases hc : s.cupEntries with
  | nil => exact absurd hc hne
  | cons a l => simp

/-- C2: the finish sequence begins exactly at the later of the minimum round
duration and the first recorded finisher.  A cup entry while `now` is still
before the minimum duration only records the entry and the winner candidate
— the finish state is untouched and the phase stays as it was; a cup entry
at or after the minimum duration (round running, no finish state yet)
starts the post-finish window immediately at `now`; a tick at or after the
minimum duration with at least one recorded finisher starts it; a tick
before the minimum duration changes nothing; and with zero finishers every
tick leaves the state unchanged, so the round keeps running until the
first finish. -/
theorem C2_finish_sequence_timing :
    (∀ (s : RoundState) (e : CupEntry) (now : ℚ),
      now < s.minRoundEndsAtMs →
      (onCupEntryRound s e now).finishState = s.finishState ∧
      (onCupEntryRound s e now).phase = s.phase ∧
      (onCupEntryRound s e now).winner ≠ none) ∧
    (∀ (s : RoundState) (e : CupEntry) (now : ℚ),
      s.phase = .running → s.finishState = none → s.minRoundEndsAtMs ≤ now →
      ((onCupEntryRound s e now).finishState).map FinishState.stopAtMs
        = some (now + POST_FINISH_RUN_MS)) ∧
    (∀ (s : RoundState) (now : ℚ),
      s.phase = .running → s.finishState = none → s.minRoundEndsAtMs ≤ now →
      s.cupEntries ≠ [] →
      ((tickFinishCheck s now).finishState).map FinishState.stopAtMs
        = some (now + POST_FINISH_RUN_MS)) ∧
    (∀ (s : RoundState) (now : ℚ), s.finishState = none → now < s.minRoundEndsAtMs →
      tickFinishCheck s now = s) ∧
    (∀ (s : RoundState) (now : ℚ), s.finishState = none → s.cupEntries = [] →
      tickFinishCheck s now = s) := by
  refine ⟨?_, ?_, ?_, ?_, ?_⟩
  · intro s e now hlt
    obtain ⟨ffp, ffw, ffc, ffm, fff⟩ :=
      cupFastForwardStep_fields { s with cupEntries := recordCupEntry s.cupEntries e }
    obtain ⟨wp, wc, wm, wf⟩ :=
      cupWinnerStep_fields (cupFastForwardStep { s with cupEntries := recordCupEntry s.cupEntries e }) now
    have hfin : onCupEntryRound s e now
        = cupWinnerStep (cupFastForwardStep { s with cupEntries := recordCupEntry s.cupEntries e }) now := by
      unfold onCupEntryRound cupFinishStep
      rw [if_neg]
      rintro ⟨-, h2, -⟩
      rw [wm, ffm] at h2
      exact absurd h2 (not_le.mpr hlt)
    rw [hfin]
    refine ⟨?_, ?_, ?_⟩
    · rw [wf, fff]
    · rw [wp, ffp]
    · refine cupWinnerStep_winner_ne_none _ now ?_
      rw [ffc]
      exact recordCupEntry_ne_nil _ _
  · intro s e now hp hf hge
    obtain ⟨ffp, ffw, ffc, ffm, fff⟩ :=
      cupFastForwardStep_fields { s with cupEntries := recordCupEntry s.cupEntries e }
    obtain ⟨wp, wc, wm, wf⟩ :=
      cupWinnerStep_fields (cupFastForwardStep { s with cupEntries := recordCupEntry s.cupEntries e }) now
    have hce : (cupWinnerStep (cupFastForwardStep
        { s with cupEntries := recordCupEntry s.cupEntries e }) now).cupEntries
        = recordCupEntry s.cupEntries e := by rw [wc, ffc]
    have hfin : onCupEntryRound s e now
        = beginFinishSequence (cupWinnerStep (cupFastForwardStep
            { s with cupEntries := recordCupEntry s.cupEntries e }) now) now := by
      unfold onCupEntryRound cupFinishStep
      rw [if_pos]
      refine ⟨by rw [wp, ffp]; exact hp, by rw [wm, ffm]; exact hge, ?_⟩
      rw [hce]
      exact List.length_pos.mpr (recordCupEntry_ne_nil _ _)
    rw [hfin]
    exact (beginFinishSequence_starts _ now (by rw [wp, ffp]; exact hp)
      (by rw [wf, fff]; exact hf) (by rw [hce]; exact recordCupEntry_ne_nil _ _)).1
  · intro s now hp hf hge hne
    unfold tickFinishCheck
    rw [hf]
    rw [if_pos (show s.minRoundEndsAtMs ≤ now ∧ 0 < s.cupEntries.length from
      ⟨hge, List.length_pos.mpr hne⟩)]
    exact (beginFinishSequence_starts s now hp hf hne).1
  · intro s now hf hlt
    unfold tickFinishCheck
    rw [hf]
    simp only []
    rw [if_neg]
    rintro ⟨h1, -⟩
    exact absurd h1 (not_le.mpr hlt)
  · intro s now hf hce
    unfold tickFinishCheck
    rw [hf]
    simp only []
    rw [if_neg]
    rintro ⟨-, h2⟩
    rw [hce] at h2
    simp at h2

/-- Closed instance of C2: a round with minimum end time 60000ms and one
finisher recorded at 40000ms has no finish state after that entry, and a
tick at 70000ms then opens the post-finish window stopping at 80000ms. -/
theorem C2_finish_sequence_timing_witness :
    (onCupEntryRound ⟨.running, 60000, [], none, none, 0, false, 1⟩ ⟨1, "a", "ff0000", 40000⟩
        40000).finishState = none ∧
    ((tickFinishCheck ⟨.running, 60000, [⟨1, "a", "ff0000", 40000⟩], none, none, 0, false, 1⟩
        70000).finishState).map FinishState.stopAtMs = some 80000 := by
  constructor
  · exact (C2_finish_sequence_timing.1 ⟨.running, 60000, [], none, none, 0, false, 1⟩
      ⟨1, "a", "ff0000", 40000⟩ 40000 (by norm_num)).1
  · have h := C2_finish_sequence_timing.2.2.1
      ⟨.running, 60000, [⟨1, "a", "ff0000", 40000⟩], none, none, 0, false, 1⟩ 70000
      rfl rfl (by norm_num) (by simp)
    rw [show (80000 : ℚ) = 70000 + POST_FINISH_RUN_MS by norm_num [POST_FINISH_RUN_MS]]
    exact h

theorem recordCupEntry_nodup (l : List CupEntry) (e : CupEntry)
    (h : (l.map CupEntry.id).Nodup) : ((recordCupEntry l e).map CupEntry.id).Nodup := by
  unfold recordCupEntry
  split
  · exact h
  · rename_i hany
    simp only [List.map_append, List.map_cons, List.map_nil]
    rw [List.nodup_append]
    refine ⟨h, List.nodup_singleton _, ?_⟩
    intro a ha hb
    simp only [List.mem_singleton] at hb
    subst hb
    simp only [List.mem_map] at ha
    obtain ⟨x, hx, hxe⟩ := ha
    simp only [List.any_eq_true, decide_eq_true_eq] at hany
    exact hany ⟨x, hx, hxe⟩

theorem foldl_recordCupEntry_nodup (es : List CupEntry) :
    ∀ (l : List CupEntry), (l.map CupEntry.id).Nodup →
      ((es.foldl recordCupEntry l).map CupEntry.id).Nodup := by
  induction es with
  | nil => intro l h; simpa using h
  | cons e rest ih =>
    intro l h
    exact ih (recordCupEntry l e) (recordCupEntry_nodup l e h)

/-- C5: the finish record never holds the same agent id twice (any sequence
of `recordCupEntry` calls from the empty record keeps the id list
duplicate-free), each call either leaves the record unchanged or appends the
new entry at the end (arrival order, never a re-sort), and both
`beginFinishSequence` and `endRound` report the winner as exactly the first
entry of the record, however many entries follow it. -/
theorem C5_finish_record_invariants :
    (∀ (es : List CupEntry), ((es.foldl recordCupEntry []).map CupEntry.id).Nodup) ∧
    (∀ (l : List CupEntry) (e : CupEntry),
      recordCupEntry l e = l ∨ recordCupEntry l e = l ++ [e]) ∧
    (∀ (s : RoundState) (now : ℚ), s.phase = .running → s.finishState = none →
      s.cupEntries ≠ [] →
      (beginFinishSequence s now).winner
        = s.cupEntries.head?.map (fun c => ⟨c.id, c.name, c.colorHex⟩) ∧
      ((beginFinishSequence s now).finishState).map FinishState.winnerId
        = s.cupEntries.head?.map CupEntry.id) ∧
    (∀ (s : RoundState), s.phase = .running → s.cupEntries ≠ [] →
      (endRound s).winner = s.cupEntries.head?.map (fun c => ⟨c.id, c.name, c.colorHex⟩) ∧
      (endRound s).phase = .finished) := by
  refine ⟨?_, ?_, ?_, ?_⟩
  · intro es
    exact foldl_recordCupEntry_nodup es [] (by simp)
  · intro l e
    unfold recordCupEntry
    split
    · exact Or.inl rfl
    · exact Or.inr rfl
  · intro s now hp hf hne
    have h := beginFinishSequence_starts s now hp hf hne
    exact ⟨h.2.2, h.2.1⟩
  · intro s hp hne
    unfold endRound
    rw [if_neg (by simp [hp])]
    cases hc : s.cupEntries with
    | nil => exact absurd hc hne
    | cons a l => simp

/-- Closed instance of C5: with two recorded finishers, both the finish
sequence and the round end report the first entry (id 1) as the winner. -/
theorem C5_finish_record_invariants_witness :
    (beginFinishSequence
        ⟨.running, 60000, [⟨1, "a", "ff0000", 100⟩, ⟨2, "b", "00ff00", 200⟩], none, none, 0,
          false, 1⟩ 60000).winner = some ⟨1, "a", "ff0000"⟩ ∧
    (endRound
        ⟨.running, 60000, [⟨1, "a", "ff0000", 100⟩, ⟨2, "b", "00ff00", 200⟩], none, none, 0,
          false, 1⟩).winner = some ⟨1, "a", "ff0000"⟩ := by
  constructor
  · have h := (C5_finish_record_invariants.2.2.1
      ⟨.running, 60000, [⟨1, "a", "ff0000", 100⟩, ⟨2, "b", "00ff00", 200⟩], none, none, 0,
        false, 1⟩ 60000 rfl rfl (by simp)).1
    simpa using h
  · have h := (C5_finish_record_invariants.2.2.2
      ⟨.running, 60000, [⟨1, "a", "ff0000", 100⟩, ⟨2, "b", "00ff00", 200⟩], none, none, 0,
        false, 1⟩ rfl (by simp)).1
    simpa using h

theorem applyCut_noop (cutCount : ℕ) (marbles : List Marble)
    (h : (marbles.filter (fun m => !m.isEliminated)).length < 50 ∨ cutCount < 5) :
    applyCut cutCount marbles = (marbles, 0) := by
  simp only [applyCut]
  rcases h with h | h
  · by_cases h5 : cutCount < 5
    · rw [if_pos h5]
    · rw [if_neg h5, if_pos h]
  · rw [if_pos h]

/-- C10: a pending announced cut whose deadline fires while fewer than 50
agents remain alive (or whose announced `cutCount` is below 5) eliminates
nobody and leaves every agent unchanged, yet the controller still clears the
pending cut state and advances to the next checkpoint, permanently
consuming it. -/
theorem C10_dropped_cut_advances
    (idx : ℕ) (cs : CutState) (now leaderP : ℚ) (aliveCount : ℕ)
    (marbles : List Marble)
    (hdue : cs.endsAtMs ≤ now)
    (hdrop : (marbles.filter (fun m => !m.isEliminated)).length < 50 ∨ cs.cutCount < 5) :
    (cutTick ⟨idx, some cs⟩ now leaderP aliveCount marbles).2.1 = marbles ∧
    (cutTick ⟨idx, some cs⟩ now leaderP aliveCount marbles).2.2 = 0 ∧
    (cutTick ⟨idx, some cs⟩ now leaderP aliveCount marbles).1 = ⟨idx + 1, none⟩ := by
  simp only [cutTick]
  rw [if_pos hdue, applyCut_noop cs.cutCount marbles hdrop]
  exact ⟨rfl, rfl, rfl⟩

/-- Closed instance of C10: an announced cut of 5 due at 3000ms over an
empty agent list is dropped and the controller advances to checkpoint 1. -/
theorem C10_dropped_cut_advances_witness :
    (cutTick ⟨0, some ⟨1, 3000, 5⟩⟩ 3000 2900 0 []).2.1 = ([] : List Marble) ∧
    (cutTick ⟨0, some ⟨1, 3000, 5⟩⟩ 3000 2900 0 []).1 = ⟨1, none⟩ := by
  have h := C10_dropped_cut_advances 0 ⟨1, 3000, 5⟩ 3000 2900 0 []
    (by norm_num) (Or.inl (by simp))
  exact ⟨h.1, h.2.2⟩

/-- A live marble with id `i` and progress `i`, used to build concrete
populations. -/
def mkAliveMarble (i : ℕ) : Marble :=
  { id := i, posX := 640, posY := (i : ℚ), velX := 0, velY := 0, angVel := 0,
    progressY := (i : ℚ), lastProgressY := 0, lastY := (i : ℚ), jetMask := 0,
    jetCooldownUntilMs := 0, lastMovedAtMs := 0, stuckCooldownUntilMs := 0,
    rescueCount := 0, rescueCooldownUntilMs := 0, isEliminated := false,
    warpUsed := false, boostCooldownUntilMs := 0, kickerCooldownUntilMs := 0,
    magnetUntilMs := 0, magnetX := 0, magnetY := 0 }

/-- A concrete population of 49 alive agents. -/
def marbles49 : List Marble := (List.range 49).map mkAliveMarble

/-- C3 counterexample: an announced cut of `cutCount = 5` whose deadline
fires with only 49 agents still alive eliminates nobody — not the announced
5 lowest-progress agents — while the checkpoint is still consumed.
(The announcement itself requires at least 50 alive, but agents can fall
out of bounds during the 3s announcement delay.) -/
theorem C3_cut_dropped_cex :
    marbles49.length = 49 ∧
    (marbles49.filter (fun m => !m.isEliminated)).length = 49 ∧
    (cutTick ⟨0, some ⟨1, 3000, 5⟩⟩ 3000 2900 49 marbles49).2.1 = marbles49 ∧
    (cutTick ⟨0, some ⟨1, 3000, 5⟩⟩ 3000 2900 49 marbles49).2.2 = 0 ∧
    (cutTick ⟨0, some ⟨1, 3000, 5⟩⟩ 3000 2900 49 marbles49).1 = ⟨1, none⟩ := by
  have hall : ∀ m ∈ marbles49, (!m.isEliminated) = true := by
    intro m hm
    simp only [marbles49, List.mem_map] at hm
    obtain ⟨i, -, rfl⟩ := hm
    rfl
  have hfil : marbles49.filter (fun m => !m.isEliminated) = marbles49 :=
    List.filter_eq_self.mpr hall
  have hlen : marbles49.length = 49 := by simp [marbles49]
  have hnoop : applyCut 5 marbles49 = (marbles49, 0) := by
    refine applyCut_noop 5 marbles49 (Or.inl ?_)
    rw [hfil, hlen]
    norm_num
  refine ⟨hlen, by rw [hfil]; exact hlen, ?_, ?_, ?_⟩ <;>
    · simp only [cutTick]
      rw [if_pos (by norm_num : (3000 : ℚ) ≤ 3000), hnoop]

/-- C3 (amended): when the leader's progress reaches the current checkpoint
threshold, a cut of `cutCount = floor(aliveCount·0.1)` is announced (with a
3s deadline) exactly when `cutCount ≥ 5` — so 120 alive agents yield a cut
of exactly 12 — and otherwise the checkpoint is skipped with no effect; at
the announced deadline the controller always clears the pending cut and
advances to the next checkpoint, and *provided at least 50 agents are still
alive and the announced `cutCount` does not exceed the current alive count*,
exactly `cutCount` agents are cut: the victims are the `cutCount` lowest-
progress entries of the stable ascending sort of the alive agents (every
victim's progress is at most every survivor's), and they are flagged
eliminated by id.  (If fewer than 50 remain alive at the deadline, the cut
is dropped; see the counterexample.) -/
theorem C3_checkpoint_cut_amended :
    (∀ (idx : ℕ) (h : idx < checkpointsY.length) (now leaderP : ℚ) (aliveCount : ℕ)
        (marbles : List Marble),
      checkpointsY.get ⟨idx, h⟩ ≤ leaderP →
      (5 ≤ aliveCount / 10 →
        cutTick ⟨idx, none⟩ now leaderP aliveCount marbles
          = (⟨idx, some ⟨idx + 1, now + 3000, aliveCount / 10⟩⟩, marbles, 0)) ∧
      (aliveCount / 10 < 5 →
        cutTick ⟨idx, none⟩ now leaderP aliveCount marbles = (⟨idx + 1, none⟩, marbles, 0))) ∧
    ((120 : ℕ) / 10 = 12) ∧
    (∀ (idx : ℕ) (cs : CutState) (now leaderP : ℚ) (aliveCount : ℕ) (marbles : List Marble),
      cs.endsAtMs ≤ now →
      (cutTick ⟨idx, some cs⟩ now leaderP aliveCount marbles).1 = ⟨idx + 1, none⟩) ∧
    (∀ (cutCount : ℕ) (marbles : List Marble),
      5 ≤ cutCount →
      50 ≤ (marbles.filter (fun m => !m.isEliminated)).length →
      cutCount ≤ (marbles.filter (fun m => !m.isEliminated)).length →
      (applyCut cutCount marbles).2 = cutCount ∧
      (((List.insertionSort progLE (marbles.filter (fun m => !m.isEliminated))).take
          cutCount).map Marble.id).length = cutCount ∧
      (∀ v ∈ (List.insertionSort progLE (marbles.filter (fun m => !m.isEliminated))).take cutCount,
        ∀ w ∈ (List.insertionSort progLE (marbles.filter (fun m => !m.isEliminated))).drop cutCount,
          v.progressY ≤ w.progressY) ∧
      (applyCut cutCount marbles).1
        = marbles.map (fun m =>
            if (((List.insertionSort progLE (marbles.filter (fun m => !m.isEliminated))).take
                cutCount).map Marble.id).contains m.id
            then { m with isEliminated := true } else m)) := by
  refine ⟨?_, rfl, ?_, ?_⟩
  · intro idx h now leaderP aliveCount marbles hlead
    constructor
    · intro h5
      unfold cutTick
      simp only []
      rw [dif_pos h, if_pos hlead, if_pos h5]
    · intro h5
      unfold cutTick
      simp only []
      rw [dif_pos h, if_pos hlead, if_neg (by omega)]
  · intro idx cs now leaderP aliveCount marbles hdue
    unfold cutTick
    simp only []
    rw [if_pos hdue]
  · intro cutCount marbles h5 h50 hle
    have hlen : (List.insertionSort progLE
        (marbles.filter (fun m => !m.isEliminated))).length
        = (marbles.filter (fun m => !m.isEliminated)).length :=
      List.length_insertionSort progLE _
    have htake : ((List.insertionSort progLE
        (marbles.filter (fun m => !m.isEliminated))).take cutCount).length = cutCount := by
      rw [List.length_take, hlen]
      omega
    have hsorted : List.Sorted progLE
        (List.insertionSort progLE (marbles.filter (fun m => !m.isEliminated))) :=
      List.sorted_insertionSort progLE _
    refine ⟨?_, ?_, ?_, ?_⟩
    · simp only [applyCut]
      rw [if_neg (by omega), if_neg (by omega)]
      simpa using htake
    · simpa using htake
    · intro v hv w hw
      exact hsorted.rel_of_mem_take_of_mem_drop hv hw
    · simp only [applyCut]
      rw [if_neg (by omega), if_neg (by omega)]

/-- Closed instance of the amended C3 theorem: with 120 alive agents at a
checkpoint crossing, a cut of exactly `floor(120·0.1) = 12` is announced
with a 3s deadline. -/
theorem C3_checkpoint_cut_amended_witness :
    cutTick ⟨0, none⟩ 20000 2800 120 []
      = (⟨0, some ⟨1, 23000, 12⟩⟩, [], 0) := by
  have h := ((C3_checkpoint_cut_amended.1 0 (by norm_num [checkpointsY]) 20000 2800 120 []
    (by norm_num [checkpointsY])).1 (by norm_num))
  rw [show (23000 : ℚ) = 20000 + 3000 by norm_num]
  exact h

/-- A wedged marble (no progress for 1.5s, stationary, far from the finish)
on its first stuck episode. -/
def stuckCexMarble : Marble :=
  { id := 3, posX := 300, posY := 1000, velX := 0, velY := 0, angVel := 0,
    progressY := 1000, lastProgressY := 1000, lastY := 1000, jetMask := 0,
    jetCooldownUntilMs := 0, lastMovedAtMs := 0, stuckCooldownUntilMs := 0,
    rescueCount := 0, rescueCooldownUntilMs := 0, isEliminated := false,
    warpUsed := false, boostCooldownUntilMs := 0, kickerCooldownUntilMs := 0,
    magnetUntilMs := 0, magnetX := 0, magnetY := 0 }

/-- C8 counterexample: the shorter stagnation timer does not nudge.  At
1500ms of stagnation — past the shorter 1.4s threshold but well below the
longer 2.8s one — the supervisor fires the escalating rescue branch: the
marble gets the strong upward kick (`velY = -3400`), not a downstream-biased
nudge; the code assigns the nudge to the longer timer and the escalation to
the shorter one, the reverse of the claim. -/
theorem C8_short_timer_escalates_cex :
    (1500 : ℚ) - stuckCexMarble.lastMovedAtMs > 1400 ∧
    ¬((1500 : ℚ) - stuckCexMarble.lastMovedAtMs > 2800) ∧
    (stuckStep true 1500 0 ⟨0, 0, 0⟩ 0 0 stuckCexMarble).2 = StuckAction.rescueKickUp ∧
    (stuckStep true 1500 0 ⟨0, 0, 0⟩ 0 0 stuckCexMarble).2 ≠ StuckAction.nudgeFinish ∧
    (stuckStep true 1500 0 ⟨0, 0, 0⟩ 0 0 stuckCexMarble).2 ≠ StuckAction.nudgeDown ∧
    (stuckStep true 1500 0 ⟨0, 0, 0⟩ 0 0 stuckCexMarble).1.velY = -3400 := by
  refine ⟨by norm_num [stuckCexMarble], by norm_num [stuckCexMarble], ?_, ?_, ?_, ?_⟩
  all_goals norm_num [stuckStep, stuckCexMarble, CUP_Y, WORLD_H]
  all_goals decide

/-- C8 (amended): of the two stagnation timers, the *shorter* one (1.4s,
speed < 28) escalates — its first fire applies a strong directed kick
(impulse toward the finish when within 1600px of the cup, otherwise a
sideways kick with a strong upward velocity) and arms the second strike;
a second consecutive fire teleports the agent back near the start (depth
between 48 and 144 in a 9200-deep world) and re-arms — while the *longer*
one (2.8s, speed < 60) nudges the agent with an impulse biased downstream
(toward the finish when within 1200px of the cup, otherwise with a strictly
downward bias); and any forward progress above the noise threshold (6px)
resets the shared stagnation clock and the rescue escalation state. -/
theorem C8_stuck_supervisor_amended :
    (∀ (p : Bool) (t sp : ℚ) (rnd : StuckRand) (ux uy : ℚ) (m : Marble),
      6 < m.progressY - m.lastProgressY →
      stuckStep p t sp rnd ux uy m
        = ({ m with lastProgressY := m.progressY, lastMovedAtMs := t,
                    rescueCount := 0, rescueCooldownUntilMs := 0 },
            StuckAction.progressReset)) ∧
    (∀ (t sp : ℚ) (rnd : StuckRand) (ux uy : ℚ) (m : Marble),
      m.progressY - m.lastProgressY ≤ 6 →
      m.rescueCooldownUntilMs ≤ t → 1400 < t - m.lastMovedAtMs → sp < 28 →
      m.rescueCount = 0 →
      (stuckStep true t sp rnd ux uy m).1.rescueCount = 1 ∧
      (stuckStep true t sp rnd ux uy m).1.rescueCooldownUntilMs = t + 1800 ∧
      (stuckStep true t sp rnd ux uy m).1.lastMovedAtMs = t ∧
      (CUP_Y - 1600 < m.posY →
        (stuckStep true t sp rnd ux uy m).2 = StuckAction.rescueKickFinish ∧
        (stuckStep true t sp rnd ux uy m).1.velX = m.velX + ux * 2000 ∧
        (stuckStep true t sp rnd ux uy m).1.velY = m.velY + uy * 2400) ∧
      (m.posY ≤ CUP_Y - 1600 →
        (stuckStep true t sp rnd ux uy m).2 = StuckAction.rescueKickUp ∧
        (stuckStep true t sp rnd ux uy m).1.velY = -3400)) ∧
    (∀ (t sp : ℚ) (rnd : StuckRand) (ux uy : ℚ) (m : Marble),
      m.progressY - m.lastProgressY ≤ 6 →
      m.rescueCooldownUntilMs ≤ t → 1400 < t - m.lastMovedAtMs → sp < 28 →
      m.rescueCount ≠ 0 →
      (stuckStep true t sp rnd ux uy m).2 = StuckAction.rescueTeleport ∧
      (stuckStep true t sp rnd ux uy m).1.rescueCount = 0 ∧
      (stuckStep true t sp rnd ux uy m).1.posX = 140 + rnd.r1 * (WORLD_W - 280) ∧
      (stuckStep true t sp rnd ux uy m).1.posY = 48 + rnd.r2 * 96 ∧
      (0 ≤ rnd.r2 → rnd.r2 ≤ 1 →
        48 ≤ (stuckStep true t sp rnd ux uy m).1.posY ∧
        (stuckStep true t sp rnd ux uy m).1.posY ≤ 144)) ∧
    (∀ (p : Bool) (t sp : ℚ) (rnd : StuckRand) (ux uy : ℚ) (m : Marble),
      m.progressY - m.lastProgressY ≤ 6 →
      ¬(p = true ∧ m.rescueCooldownUntilMs ≤ t ∧ 1400 < t - m.lastMovedAtMs ∧ sp < 28) →
      m.stuckCooldownUntilMs ≤ t → 2800 < t - m.lastMovedAtMs → sp < 60 →
      (stuckStep p t sp rnd ux uy m).1.lastMovedAtMs = t ∧
      (stuckStep p t sp rnd ux uy m).1.stuckCooldownUntilMs = t + 2000 ∧
      (CUP_Y - 1200 < m.posY →
        (stuckStep p t sp rnd ux uy m).2 = StuckAction.nudgeFinish ∧
        (stuckStep p t sp rnd ux uy m).1.velX = m.velX + ux * 900 ∧
        (stuckStep p t sp rnd ux uy m).1.velY = m.velY + uy * 900) ∧
      (m.posY ≤ CUP_Y - 1200 →
        (stuckStep p t sp rnd ux uy m).2 = StuckAction.nudgeDown ∧
        (stuckStep p t sp rnd ux uy m).1.velX = m.velX + rnd.r1 * 520 ∧
        (stuckStep p t sp rnd ux uy m).1.velY = m.velY + 520 + rnd.r2 * 260)) := by
  refine ⟨?_, ?_, ?_, ?_⟩
  · intro p t sp rnd ux uy m h6
    simp only [stuckStep]
    rw [if_pos h6]
  · intro t sp rnd ux uy m h6 hcd hel hsp hrc
    simp only [stuckStep]
    rw [if_neg (not_lt.mpr h6), if_pos ⟨by trivial, hcd, hel, hsp⟩, if_pos hrc]
    refine ⟨?_, ?_, ?_, ?_, ?_⟩
    · split <;> rfl
    · split <;> rfl
    · split <;> rfl
    · intro hnf
      rw [if_pos hnf]
      exact ⟨rfl, rfl, rfl⟩
    · intro hfar
      rw [if_neg (not_lt.mpr hfar)]
      exact ⟨rfl, rfl⟩
  · intro t sp rnd ux uy m h6 hcd hel hsp hrc
    simp only [stuckStep]
    rw [if_neg (not_lt.mpr h6), if_pos ⟨by trivial, hcd, hel, hsp⟩, if_neg hrc]
    refine ⟨rfl, rfl, rfl, rfl, ?_⟩
    intro hr0 hr1
    constructor
    · show (48 : ℚ) ≤ 48 + rnd.r2 * 96
      nlinarith
    · show (48 : ℚ) + rnd.r2 * 96 ≤ 144
      nlinarith
  · intro p t sp rnd ux uy m h6 hshort hscd h28 hsp
    simp only [stuckStep]
    rw [if_neg (not_lt.mpr h6), if_neg hshort, if_pos ⟨hscd, h28, hsp⟩]
    refine ⟨?_, ?_, ?_, ?_⟩
    · split <;> rfl
    · split <;> rfl
    · intro hnf
      rw [if_pos hnf]
      exact ⟨rfl, rfl, rfl⟩
    · intro hfar
      rw [if_neg (not_lt.mpr hfar)]
      exact ⟨rfl, rfl, rfl⟩

/-- A wedged marble on its second consecutive stuck episode. -/
def stuckTeleportMarble : Marble :=
  { stuckCexMarble with id := 4, rescueCount := 1 }

/-- Closed instance of the amended C8 theorem: a second consecutive stuck
episode teleports the agent back near the start (depth 96 for a mid-range
draw) and resets the escalation counter. -/
theorem C8_stuck_supervisor_amended_witness :
    (stuckStep true 1500 0 ⟨1 / 2, 1 / 2, 0⟩ 0 0 stuckTeleportMarble).2
      = StuckAction.rescueTeleport ∧
    (stuckStep true 1500 0 ⟨1 / 2, 1 / 2, 0⟩ 0 0 stuckTeleportMarble).1.posY = 96 ∧
    (stuckStep true 1500 0 ⟨1 / 2, 1 / 2, 0⟩ 0 0 stuckTeleportMarble).1.rescueCount = 0 := by
  have h := C8_stuck_supervisor_amended.2.2.1 1500 0 ⟨1 / 2, 1 / 2, 0⟩ 0 0 stuckTeleportMarble
    (by norm_num [stuckTeleportMarble, stuckCexMarble])
    (by norm_num [stuckTeleportMarble, stuckCexMarble])
    (by norm_num [stuckTeleportMarble, stuckCexMarble])
    (by norm_num)
    (by norm_num [stuckTeleportMarble, stuckCexMarble])
  refine ⟨h.1, ?_, h.2.1⟩
  rw [h.2.2.2.1]
  norm_num

theorem clampQ_eq_self (v lo hi : ℚ) (h1 : lo ≤ v) (h2 : v ≤ hi) : clampQ v lo hi = v := by
  unfold clampQ
  rw [min_eq_right h2, max_eq_right h1]

/-- C9: while the camera is in manual mode and its manual expiry has not
elapsed, the per-frame camera update leaves the stored camera position
exactly unchanged for every possible set of alive agents — neither the
leader-follow nor the focus target computation can influence it — and the
camera stays in manual mode; the time-bounded shake offset is layered
additively on the emitted container position only. -/
theorem C9_manual_camera_precedence
    (cfg : CamCfg) (alive : List AlivePos) (now : ℚ) (cam : Camera)
    (hmode : cam.mode = .manual) (hactive : now < cam.manualUntilMs)
    (hx0 : 0 ≤ cam.x) (hx1 : cam.x ≤ WORLD_W - cfg.screenW)
    (hy0 : 0 ≤ cam.y) (hy1 : cam.y ≤ WORLD_H - cfg.screenH) :
    (updateCamera cfg alive now cam).x = cam.x ∧
    (updateCamera cfg alive now cam).y = cam.y ∧
    (updateCamera cfg alive now cam).mode = CamMode.manual ∧
    (∀ (r1 r2 : ℚ),
      emittedCameraPos (updateCamera cfg alive now cam) now r1 r2
        = (-cam.x + (if now < cam.shakeUntilMs then r1 * cam.shakeAmp else 0),
           -cam.y + (if now < cam.shakeUntilMs then r2 * cam.shakeAmp else 0))) := by
  have h1 : ¬(cam.mode = .manual ∧ cam.manualUntilMs ≤ now) := by
    rintro ⟨-, h⟩
    exact absurd h (not_le.mpr hactive)
  have h2 : ¬(cam.mode = .focus ∧ cam.focusUntilMs ≤ now) := by
    rintro ⟨hf, -⟩
    rw [hmode] at hf
    cases hf
  have e1 : camManualExpiryStep cam now = cam := by
    unfold camManualExpiryStep
    rw [if_neg h1]
  have e2 : camFocusExpiryStep cam now = cam := by
    unfold camFocusExpiryStep
    rw [if_neg h2]
  have hxeq : (updateCamera cfg alive now cam).x = cam.x ∧
      (updateCamera cfg alive now cam).y = cam.y ∧
      (updateCamera cfg alive now cam).mode = CamMode.manual := by
    unfold updateCamera
    split
    · exact ⟨rfl, rfl, hmode⟩
    · simp only [e1, e2]
      rw [if_pos hmode]
      simp only [camApplyTarget]
      rw [if_pos hmode]
      refine ⟨?_, ?_, hmode⟩
      · rw [show cam.x + cfg.screenW / 2 - cfg.screenW / 2 = cam.x by ring,
          clampQ_eq_self cam.x 0 (WORLD_W - cfg.screenW) hx0 hx1]
        ring
      · rw [show cam.y + cfg.screenH * cfg.anchorY - cfg.screenH * cfg.anchorY = cam.y by ring,
          clampQ_eq_self cam.y 0 (WORLD_H - cfg.screenH) hy0 hy1]
        ring
  have hshake : (updateCamera cfg alive now cam).shakeUntilMs = cam.shakeUntilMs ∧
      (updateCamera cfg alive now cam).shakeAmp = cam.shakeAmp := by
    unfold updateCamera
    split
    · exact ⟨rfl, rfl⟩
    · simp only [e1, e2]
      rw [if_pos hmode]
      simp [camApplyTarget]
  refine ⟨hxeq.1, hxeq.2.1, hxeq.2.2, ?_⟩
  intro r1 r2
  unfold emittedCameraPos
  rw [hxeq.1, hxeq.2.1, hshake.1, hshake.2]

/-- Closed instance of C9: a manually panned camera at (100, 200) with 4s of
manual time remaining ignores a leader at depth 9000 entirely. -/
theorem C9_manual_camera_precedence_witness :
    (updateCamera ⟨720, 1280, 31 / 50⟩ [⟨1, 640, 9000, 9000⟩] 1000
        ⟨100, 200, .manual, 0, none, 5000, 0, none, 0, 0⟩).x = 100 ∧
    (updateCamera ⟨720, 1280, 31 / 50⟩ [⟨1, 640, 9000, 9000⟩] 1000
        ⟨100, 200, .manual, 0, none, 5000, 0, none, 0, 0⟩).y = 200 := by
  have h := C9_manual_camera_precedence ⟨720, 1280, 31 / 50⟩ [⟨1, 640, 9000, 9000⟩] 1000
    ⟨100, 200, .manual, 0, none, 5000, 0, none, 0, 0⟩ rfl (by norm_num)
    (by norm_num) (by norm_num [WORLD_W]) (by norm_num) (by norm_num [WORLD_H])
  exact ⟨h.1, h.2.1⟩

end BallRace
